import Mathlib

/-!
Verification of the Machine reconciler and the AKO deployment-config renderer
of the load-balancer operator.

The reconciler (`controllers/machine_controller.go`) keeps a pre-terminate
deletion-hook marker on a Machine in sync with the deletion / finalizer state
of the owning Cluster.  Annotation and label maps (Go `map[string]string`,
which may be nil) are embedded as `Option (List (String × String))` with
lookup / insert / erase given the Go map semantics; the remote object store
and the patch helper are embedded as explicit inputs to `reconcile`.
-/

namespace AKOO

/-- Go map read `m[k]`: value of the first entry whose key is `k`. -/
def lookupKV : List (String × String) → String → Option String
  | [], _ => none
  | (k2, v) :: rest, k => if k2 = k then some v else lookupKV rest k

/-- Go map write `m[k] = v`: replace the entry for `k`, or append it. -/
def insertKV : List (String × String) → String → String → List (String × String)
  | [], k, v => [(k, v)]
  | (k2, v2) :: rest, k, v =>
    if k2 = k then (k, v) :: rest else (k2, v2) :: insertKV rest k v

/-- Go `delete(m, k)`: drop every entry whose key is `k`. -/
def eraseKV : List (String × String) → String → List (String × String)
  | [], _ => []
  | (k2, v2) :: rest, k =>
    if k2 = k then eraseKV rest k else (k2, v2) :: eraseKV rest k

/-- `listIsPre p l` holds when the character list `p` starts `l`
(string-prefix test used by `annotations.HasWithPrefix`). -/
def listIsPre : List Char → List Char → Bool
  | [], _ => true
  | _ :: _, [] => false
  | a :: as, b :: bs => a = b && listIsPre as bs

/-- `clusterv1.ClusterLabelName`: label on a Machine naming its Cluster. -/
def clusterNameLabel : String := "cluster.x-k8s.io/cluster-name"

/-- `clusterv1.PreTerminateDeleteHookAnnotationPrefix` (the bare key base). -/
def preTerminateHookBase : String :=
  "pre-terminate.delete.hook.machine.cluster.x-k8s.io"

/-- `preTerminateAnnotation()`: the operator's own hook key, base + "/avi-cleanup". -/
def preTerminateHookKey : String := preTerminateHookBase ++ "/avi-cleanup"

/-- `akoov1alpha1.AviClusterLabel`: feature label enabling AVI on a Cluster. -/
def aviClusterLabel : String := "networking.tkg.tanzu.vmware.com/avi"

/-- `akoov1alpha1.ClusterFinalizer`: the managing finalizer on a Cluster. -/
def clusterFinalizer : String := "ako-operator.networking.tkg.tanzu.vmware.com"

/-- `clusterv1.Machine`: labels and an annotation map (`none` = Go nil map). -/
structure Machine where
  labels : List (String × String)
  annotationMap : Option (List (String × String))
deriving DecidableEq, Repr

/-- `clusterv1.Cluster`: labels, deletion timestamp (`none` = zero = not
deleting), and the finalizer list. -/
structure Cluster where
  labels : List (String × String)
  deletionTimestamp : Option Nat
  finalizers : List String
deriving DecidableEq, Repr

/-- `annotations.HasWithPrefix pre m`: some key of `m` has `pre` as a string
prefix; false on the nil map. -/
def hasPrefixedKey (pre : String) (m : Option (List (String × String))) : Bool :=
  (m.getD []).any fun kv => listIsPre pre.toList kv.1.toList

/-- Presence of the operator's hook key on a Machine. -/
def hasHook (obj : Machine) : Bool :=
  (lookupKV (obj.annotationMap.getD []) preTerminateHookKey).isSome

/-- Annotation-map effect of `MachineReconciler.reconcileNormal`
(lines 131-148): if the annotation at the BARE base key is absent, allocate
the map when nil and set the full hook key to "ako-operator". -/
def normalAnn (ann : Option (List (String × String))) : Option (List (String × String)) :=
  if (lookupKV (ann.getD []) preTerminateHookBase).isNone then
    some (insertKV (ann.getD []) preTerminateHookKey "ako-operator")
  else ann

/-- `MachineReconciler.reconcileNormal`: mutates only the annotation map. -/
def reconcileNormal (obj : Machine) : Machine :=
  { obj with annotationMap := normalAnn obj.annotationMap }

/-- Annotation-map effect of `MachineReconciler.reconcileMachineDeletionHook`
(lines 152-174): when the managing finalizer is gone and some annotation key
starts with the base, delete the operator's own hook key. -/
def deletionHookAnn (cluster : Cluster) (ann : Option (List (String × String))) :
    Option (List (String × String)) :=
  if cluster.finalizers.contains clusterFinalizer then ann
  else if hasPrefixedKey preTerminateHookBase ann then
    ann.map fun m => eraseKV m preTerminateHookKey
  else ann

/-- `MachineReconciler.reconcileMachineDeletionHook`: mutates only the
annotation map. -/
def reconcileMachineDeletionHook (obj : Machine) (cluster : Cluster) : Machine :=
  { obj with annotationMap := deletionHookAnn cluster obj.annotationMap }

/-- `MachineReconciler.reconcileClusterDelete` (lines 119-127). -/
def reconcileClusterDelete (obj : Machine) (cluster : Cluster) : Machine :=
  reconcileMachineDeletionHook obj cluster

/-- Errors `Reconcile` can return. -/
inductive RError where
  | machineGetErr
  | clusterGetErr
  | patchInitErr
  | patchCommitErr
deriving DecidableEq, Repr

/-- Result of a store `Get`. -/
inductive GetResult (α : Type) where
  | notFound : GetResult α
  | errored : GetResult α
  | found : α → GetResult α
deriving DecidableEq, Repr

/-- Exogenous inputs of one `Reconcile` call: the store's answers for the
Machine and the Cluster, and whether the patch-helper init / deferred patch
commit fail. -/
structure ReconcileInput where
  getMachine : GetResult Machine
  getCluster : GetResult Cluster
  patchInitFails : Bool
  patchCommitFails : Bool
deriving DecidableEq, Repr

/-- The decision logic of `Reconcile` between the deferred patch being
installed and the return (lines 78-116): resolve the cluster-name label,
fetch the Cluster (any failure propagates), short-circuit when the AVI label
is absent, then branch on the deletion timestamp. -/
def reconcileBody (inp : ReconcileInput) (obj : Machine) : Machine × Option RError :=
  match lookupKV obj.labels clusterNameLabel with
  | none => (obj, none)
  | some _ =>
    match inp.getCluster with
    | GetResult.notFound => (obj, some RError.clusterGetErr)
    | GetResult.errored => (obj, some RError.clusterGetErr)
    | GetResult.found cluster =>
      if (lookupKV cluster.labels aviClusterLabel).isNone then (obj, none)
      else if cluster.deletionTimestamp.isSome then
        (reconcileClusterDelete obj cluster, none)
      else (reconcileNormal obj, none)

/-- Outcome of `Reconcile`: the Machine's final in-memory state (what the
patch writes back), the returned error, and whether the patch step issues an
update (the diff of snapshot vs final state is non-empty). -/
structure ReconcileOutput where
  machine : Option Machine
  err : Option RError
  wrote : Bool
deriving DecidableEq, Repr

/-- `MachineReconciler.Reconcile` (lines 48-117).  Machine NotFound is
terminal success; any other Machine get error propagates; then the patch
helper is initialized and its deferred commit runs on every exit path, its
failure becoming the returned error only when the body returned nil
(`if reterr == nil { reterr = err }`). -/
def reconcile (inp : ReconcileInput) : ReconcileOutput :=
  match inp.getMachine with
  | GetResult.notFound => ⟨none, none, false⟩
  | GetResult.errored => ⟨none, some RError.machineGetErr, false⟩
  | GetResult.found obj0 =>
    if inp.patchInitFails then ⟨some obj0, some RError.patchInitErr, false⟩
    else
      let r := reconcileBody inp obj0
      let reterr :=
        if inp.patchCommitFails then
          match r.2 with
          | none => some RError.patchCommitErr
          | some e => some e
        else r.2
      ⟨some r.1, reterr, decide (r.1 ≠ obj0)⟩

/-! ### Concrete reconcile inputs used by the claim theorems -/

/-- Machine whose body errs (cluster get fails) while the commit also fails. -/
def c1Machine : Machine := ⟨[(clusterNameLabel, "cluster-a")], none⟩

def c1Input : ReconcileInput := ⟨GetResult.found c1Machine, GetResult.errored, false, true⟩

def c1WitnessInput : ReconcileInput :=
  ⟨GetResult.found ⟨[], none⟩, GetResult.notFound, false, true⟩

/-- Not-deleting Machine whose annotation map holds the BARE base key but not
the hook key. -/
def c2Machine : Machine :=
  ⟨[(clusterNameLabel, "cluster-a")], some [(preTerminateHookBase, "foo")]⟩

def c2Cluster : Cluster := ⟨[(aviClusterLabel, "")], none, []⟩

def c2Input : ReconcileInput :=
  ⟨GetResult.found c2Machine, GetResult.found c2Cluster, false, false⟩

def c3Input : ReconcileInput :=
  ⟨GetResult.found ⟨[(clusterNameLabel, "cluster-a")], none⟩,
   GetResult.found ⟨[(aviClusterLabel, "")], none, []⟩, false, false⟩

def c3M1 : Machine :=
  ⟨[(clusterNameLabel, "cluster-a")], some [(preTerminateHookKey, "ako-operator")]⟩

/-- In-scope deleting Cluster that still carries the managing finalizer. -/
def c4Cluster : Cluster := ⟨[(aviClusterLabel, "")], some 1, [clusterFinalizer]⟩

def c4Machine : Machine := ⟨[(clusterNameLabel, "cluster-a")], some []⟩

def c4Input : ReconcileInput :=
  ⟨GetResult.found c4Machine, GetResult.found c4Cluster, false, false⟩

/-! ### Manifest renderer (bootstrap-cluster controller)

The renderer itself (`ConvertToAKODeploymentYaml`) ships outside the files
under verification; only its unit test does.  It is therefore modelled from
the spec (§4.3), with the structures mirroring the fields the unit test
populates. -/

structure DataNetwork where
  name : String
  cidr : String
deriving DecidableEq, Repr

structure NodeNetwork where
  networkName : String
  cidrs : List String
deriving DecidableEq, Repr

structure AKOImageConfig where
  repository : String
  pullPolicy : String
  version : String
deriving DecidableEq, Repr

structure AKORbacConfig where
  pspEnabled : Bool
  pspPolicyAPIVersion : String
deriving DecidableEq, Repr

structure AKOLogConfig where
  persistentVolumeClaim : String
  mountPath : String
  logFile : String
deriving DecidableEq, Repr

structure AKOIngressConfig where
  disableIngressClass : Bool
  defaultIngressController : Bool
  shardVSSize : String
  serviceType : String
  nodeNetworkList : List NodeNetwork
deriving DecidableEq, Repr

structure ExtraConfigs where
  image : AKOImageConfig
  rbac : AKORbacConfig
  log : AKOLogConfig
  ingressConfigs : AKOIngressConfig
  disableStaticRouteSync : Bool
deriving DecidableEq, Repr

structure AKODeploymentConfigSpec where
  cloudName : String
  controller : String
  serviceEngineGroup : String
  dataNetwork : DataNetwork
  extraConfigs : ExtraConfigs
deriving DecidableEq, Repr

structure AKODeploymentConfig where
  spec : AKODeploymentConfigSpec
deriving DecidableEq, Repr

def isDigitChar (c : Char) : Bool := decide (48 ≤ c.toNat) && decide (c.toNat ≤ 57)

def digitsToNat (l : List Char) : Nat := l.foldl (fun acc c => acc * 10 + (c.toNat - 48)) 0

def splitOnChar (c : Char) : List Char → List (List Char)
  | [] => [[]]
  | a :: rest =>
    match splitOnChar c rest with
    | [] => [[]]
    | g :: gs => if a = c then [] :: g :: gs else (a :: g) :: gs

def isValidOctet (l : List Char) : Bool :=
  decide (0 < l.length) && decide (l.length ≤ 3) && l.all isDigitChar &&
    decide (digitsToNat l ≤ 255)

def isValidIPv4 (l : List Char) : Bool :=
  match splitOnChar '.' l with
  | [a, b, c, d] => isValidOctet a && isValidOctet b && isValidOctet c && isValidOctet d
  | _ => false

/-- Modelled from the spec: "Fields representing network ranges ... are
validated as syntactically correct network-address-with-prefix values"
(§4.3); a CIDR is "a network address plus prefix length" (glossary). -/
def isValidCIDR (s : String) : Bool :=
  match splitOnChar '/' s.toList with
  | [ip, len] =>
    isValidIPv4 ip && decide (0 < len.length) && len.all isDigitChar &&
      decide (digitsToNat len ≤ 32)
  | _ => false

def boolScalar (b : Bool) : String := if b then "true" else "false"

def renderNodeNetworkEntry (n : NodeNetwork) : String :=
  "    - networkName: " ++ n.networkName ++ "\n" ++
    String.join (n.cidrs.map fun c => "      - " ++ c ++ "\n")

/-- Modelled from the spec: `ConvertToAKODeploymentYaml` of the
bootstrap-cluster controller is missing from the sources under verification
(only its unit test is present).  Per §4.3 it substitutes every field of the
config plus the management-cluster name into a fixed template, validates the
data-network CIDR and each node-network CIDR, fails with a validation error
naming the offending field and no partial output, and is deterministic. -/
def ConvertToAKODeploymentYaml (config : AKODeploymentConfig) (mgmtClusterName : String) :
    Except String String :=
  if isValidCIDR config.spec.dataNetwork.cidr = false then
    Except.error ("spec.dataNetwork.cidr is not a valid CIDR: " ++ config.spec.dataNetwork.cidr)
  else if (config.spec.extraConfigs.ingressConfigs.nodeNetworkList.all fun n =>
      n.cidrs.all isValidCIDR) = false then
    Except.error "spec.extraConfigs.ingressConfigs.nodeNetworkList holds an invalid CIDR"
  else
    Except.ok
      ("apiVersion: v1\nkind: ConfigMap\nmetadata:\n  name: ako-deployment\ndata:\n" ++
       "  managementClusterName: " ++ mgmtClusterName ++ "\n" ++
       "  cloudName: " ++ config.spec.cloudName ++ "\n" ++
       "  controller: " ++ config.spec.controller ++ "\n" ++
       "  serviceEngineGroup: " ++ config.spec.serviceEngineGroup ++ "\n" ++
       "  dataNetworkName: " ++ config.spec.dataNetwork.name ++ "\n" ++
       "  dataNetworkCIDR: " ++ config.spec.dataNetwork.cidr ++ "\n" ++
       "  imageRepository: " ++ config.spec.extraConfigs.image.repository ++ "\n" ++
       "  imagePullPolicy: " ++ config.spec.extraConfigs.image.pullPolicy ++ "\n" ++
       "  imageVersion: " ++ config.spec.extraConfigs.image.version ++ "\n" ++
       "  pspEnabled: " ++ boolScalar config.spec.extraConfigs.rbac.pspEnabled ++ "\n" ++
       "  pspPolicyAPIVersion: " ++ config.spec.extraConfigs.rbac.pspPolicyAPIVersion ++ "\n" ++
       "  persistentVolumeClaim: " ++ config.spec.extraConfigs.log.persistentVolumeClaim ++
       "\n" ++
       "  mountPath: " ++ config.spec.extraConfigs.log.mountPath ++ "\n" ++
       "  logFile: " ++ config.spec.extraConfigs.log.logFile ++ "\n" ++
       "  disableIngressClass: " ++
       boolScalar config.spec.extraConfigs.ingressConfigs.disableIngressClass ++ "\n" ++
       "  defaultIngressController: " ++
       boolScalar config.spec.extraConfigs.ingressConfigs.defaultIngressController ++ "\n" ++
       "  shardVSSize: " ++ config.spec.extraConfigs.ingressConfigs.shardVSSize ++ "\n" ++
       "  serviceType: " ++ config.spec.extraConfigs.ingressConfigs.serviceType ++ "\n" ++
       "  nodeNetworkList:\n" ++
       String.join (config.spec.extraConfigs.ingressConfigs.nodeNetworkList.map
         renderNodeNetworkEntry) ++
       "  disableStaticRouteSync: " ++
       boolScalar config.spec.extraConfigs.disableStaticRouteSync ++ "\n")

def isRenderErr : Except String String → Bool
  | Except.error _ => true
  | Except.ok _ => false

/-- The AKODeploymentConfig the unit test builds (valid CIDR "10.0.0.0/24"). -/
def unitTestConfig : AKODeploymentConfig :=
  ⟨⟨"test-cloud", "10.23.122.1", "Default-SEG", ⟨"test-akdc", "10.0.0.0/24"⟩,
    ⟨⟨"test/image", "IfNotPresent", "1.3.1"⟩,
     ⟨true, "test/1.2"⟩,
     ⟨"true", "/var/log", "test-avi.log"⟩,
     ⟨true, true, "MEDIUM", "NodePort",
      [⟨"test-node-network-1", ["10.0.0.0/24", "192.168.0.0/24"]⟩]⟩,
     true⟩⟩⟩

/-- The same config with the data-network CIDR set to the literal "test". -/
def unitTestBadConfig : AKODeploymentConfig :=
  ⟨⟨"test-cloud", "10.23.122.1", "Default-SEG", ⟨"test-akdc", "test"⟩,
    unitTestConfig.spec.extraConfigs⟩⟩

/-! ### Map lemmas -/

theorem lookupKV_insertKV_self (m : List (String × String)) (k v : String) :
    lookupKV (insertKV m k v) k = some v := by
  induction m with
  | nil => simp [insertKV, lookupKV]
  | cons hd tl ih =>
    obtain ⟨k2, v2⟩ := hd
    by_cases h : k2 = k <;> simp [insertKV, lookupKV, h, ih]

theorem lookupKV_insertKV_ne (m : List (String × String)) (k v k' : String)
    (h : k' ≠ k) : lookupKV (insertKV m k v) k' = lookupKV m k' := by
  induction m with
  | nil => simp [insertKV, lookupKV, Ne.symm h]
  | cons hd tl ih =>
    obtain ⟨k2, v2⟩ := hd
    by_cases hk : k2 = k
    · simp [insertKV, lookupKV, hk, Ne.symm h]
    · simp [insertKV, lookupKV, hk, ih]

theorem insertKV_lookup_eq (m : List (String × String)) (k v : String)
    (h : lookupKV m k = some v) : insertKV m k v = m := by
  induction m with
  | nil => simp [lookupKV] at h
  | cons hd tl ih =>
    obtain ⟨k2, v2⟩ := hd
    by_cases hk : k2 = k
    · subst hk
      simp [lookupKV] at h
      simp [insertKV, h]
    · simp [lookupKV, hk] at h
      simp [insertKV, hk, ih h]

theorem lookupKV_eraseKV_ne (m : List (String × String)) (k k' : String)
    (h : k' ≠ k) : lookupKV (eraseKV m k) k' = lookupKV m k' := by
  induction m with
  | nil => simp [eraseKV]
  | cons hd tl ih =>
    obtain ⟨k2, v2⟩ := hd
    by_cases hk : k2 = k
    · simp [eraseKV, lookupKV, hk, Ne.symm h, ih]
    · simp [eraseKV, lookupKV, hk, ih]

theorem lookupKV_eraseKV_self (m : List (String × String)) (k : String) :
    lookupKV (eraseKV m k) k = none := by
  induction m with
  | nil => simp [eraseKV, lookupKV]
  | cons hd tl ih =>
    obtain ⟨k2, v2⟩ := hd
    by_cases hk : k2 = k <;> simp [eraseKV, lookupKV, hk, ih]

theorem eraseKV_eraseKV (m : List (String × String)) (k : String) :
    eraseKV (eraseKV m k) k = eraseKV m k := by
  induction m with
  | nil => simp [eraseKV]
  | cons hd tl ih =>
    obtain ⟨k2, v2⟩ := hd
    by_cases hk : k2 = k <;> simp [eraseKV, hk, ih]

theorem any_pre_of_lookup_isSome (l : List (String × String)) (k pre : String)
    (hpre : listIsPre pre.toList k.toList = true)
    (h : (lookupKV l k).isSome = true) :
    (l.any fun kv => listIsPre pre.toList kv.1.toList) = true := by
  induction l with
  | nil => simp [lookupKV] at h
  | cons hd tl ih =>
    obtain ⟨k2, v2⟩ := hd
    rw [List.any_cons, Bool.or_eq_true]
    by_cases hk : k2 = k
    · subst hk
      exact Or.inl hpre
    · rw [lookupKV, if_neg hk] at h
      exact Or.inr (ih h)

theorem base_isPre_key :
    listIsPre preTerminateHookBase.toList preTerminateHookKey.toList = true := by
  decide

theorem base_ne_key : preTerminateHookBase ≠ preTerminateHookKey := by decide

/-! ### Branch lemmas -/

theorem reconcileNormal_labels (obj : Machine) :
    (reconcileNormal obj).labels = obj.labels := rfl

theorem reconcileHook_labels (obj : Machine) (c : Cluster) :
    (reconcileMachineDeletionHook obj c).labels = obj.labels := rfl

theorem lookupKV_normalAnn_hook (ann : Option (List (String × String)))
    (h : lookupKV (ann.getD []) preTerminateHookBase = none) :
    lookupKV ((normalAnn ann).getD []) preTerminateHookKey = some "ako-operator" := by
  unfold normalAnn
  rw [h]
  simp only [Option.isNone_none, if_true, Option.getD_some]
  exact lookupKV_insertKV_self _ _ _

theorem hasHook_reconcileNormal (obj : Machine)
    (h : lookupKV (obj.annotationMap.getD []) preTerminateHookBase = none) :
    hasHook (reconcileNormal obj) = true := by
  unfold hasHook reconcileNormal
  rw [lookupKV_normalAnn_hook obj.annotationMap h]
  rfl

theorem lookupKV_deletionHookAnn (c : Cluster) (ann : Option (List (String × String)))
    (hfin : c.finalizers.contains clusterFinalizer = false) :
    lookupKV ((deletionHookAnn c ann).getD []) preTerminateHookKey = none := by
  unfold deletionHookAnn
  rw [hfin]
  simp only [Bool.false_eq_true, if_false]
  by_cases h2 : hasPrefixedKey preTerminateHookBase ann = true
  · rw [if_pos h2]
    cases ann with
    | none => simp [lookupKV]
    | some l => simp [lookupKV_eraseKV_self]
  · rw [if_neg h2]
    rw [Bool.not_eq_true] at h2
    cases hcon : lookupKV (ann.getD []) preTerminateHookKey with
    | none => rfl
    | some v =>
      have hany := any_pre_of_lookup_isSome (ann.getD [])
        preTerminateHookKey preTerminateHookBase base_isPre_key (by rw [hcon]; rfl)
      unfold hasPrefixedKey at h2
      rw [hany] at h2
      exact absurd h2 (by decide)

theorem hasHook_reconcileHook (obj : Machine) (c : Cluster)
    (hfin : c.finalizers.contains clusterFinalizer = false) :
    hasHook (reconcileMachineDeletionHook obj c) = false := by
  unfold hasHook reconcileMachineDeletionHook
  rw [lookupKV_deletionHookAnn c obj.annotationMap hfin]
  rfl

/-! ### Idempotence -/

theorem normalAnn_idem (ann : Option (List (String × String))) :
    normalAnn (normalAnn ann) = normalAnn ann := by
  unfold normalAnn
  by_cases h : (lookupKV (ann.getD []) preTerminateHookBase).isNone = true
  · rw [if_pos h]
    simp only [Option.getD_some]
    rw [lookupKV_insertKV_ne (ann.getD []) preTerminateHookKey "ako-operator"
      preTerminateHookBase base_ne_key]
    rw [if_pos h]
    rw [insertKV_lookup_eq _ _ _
      (lookupKV_insertKV_self (ann.getD []) preTerminateHookKey "ako-operator")]
  · rw [if_neg h, if_neg h]

theorem deletionHookAnn_idem (c : Cluster) (ann : Option (List (String × String))) :
    deletionHookAnn c (deletionHookAnn c ann) = deletionHookAnn c ann := by
  unfold deletionHookAnn
  by_cases h1 : c.finalizers.contains clusterFinalizer = true
  · rw [if_pos h1, if_pos h1]
  · rw [if_neg h1, if_neg h1]
    by_cases h2 : hasPrefixedKey preTerminateHookBase ann = true
    · rw [if_pos h2]
      by_cases h3 : hasPrefixedKey preTerminateHookBase
          (ann.map fun m => eraseKV m preTerminateHookKey) = true
      · rw [if_pos h3]
        cases ann with
        | none => rfl
        | some m => simp [eraseKV_eraseKV]
      · rw [if_neg h3]
    · rw [if_neg h2, if_neg h2]

theorem reconcileNormal_idem (obj : Machine) :
    reconcileNormal (reconcileNormal obj) = reconcileNormal obj := by
  unfold reconcileNormal
  rw [normalAnn_idem]

theorem reconcileHook_idem (obj : Machine) (c : Cluster) :
    reconcileMachineDeletionHook (reconcileMachineDeletionHook obj c) c =
    reconcileMachineDeletionHook obj c := by
  unfold reconcileMachineDeletionHook
  rw [deletionHookAnn_idem]

/-- `reconcileBody` reads only `getCluster` from its input. -/
theorem reconcileBody_congr (i1 i2 : ReconcileInput) (h : i1.getCluster = i2.getCluster)
    (obj : Machine) : reconcileBody i1 obj = reconcileBody i2 obj := by
  unfold reconcileBody
  rw [h]

/-! Branch equations for `reconcileBody`. -/

theorem reconcileBody_no_label (inp : ReconcileInput) (obj : Machine)
    (hl : lookupKV obj.labels clusterNameLabel = none) :
    reconcileBody inp obj = (obj, none) := by
  unfold reconcileBody
  rw [hl]

theorem reconcileBody_cluster_notFound (inp : ReconcileInput) (obj : Machine) (cn : String)
    (hl : lookupKV obj.labels clusterNameLabel = some cn)
    (hc : inp.getCluster = GetResult.notFound) :
    reconcileBody inp obj = (obj, some RError.clusterGetErr) := by
  unfold reconcileBody
  rw [hl, hc]

theorem reconcileBody_cluster_errored (inp : ReconcileInput) (obj : Machine) (cn : String)
    (hl : lookupKV obj.labels clusterNameLabel = some cn)
    (hc : inp.getCluster = GetResult.errored) :
    reconcileBody inp obj = (obj, some RError.clusterGetErr) := by
  unfold reconcileBody
  rw [hl, hc]

theorem reconcileBody_no_avi (inp : ReconcileInput) (obj : Machine) (cn : String) (c : Cluster)
    (hl : lookupKV obj.labels clusterNameLabel = some cn)
    (hc : inp.getCluster = GetResult.found c)
    (havi : (lookupKV c.labels aviClusterLabel).isNone = true) :
    reconcileBody inp obj = (obj, none) := by
  unfold reconcileBody
  rw [hl, hc]
  simp [havi]

theorem reconcileBody_deleting (inp : ReconcileInput) (obj : Machine) (cn : String) (c : Cluster)
    (hl : lookupKV obj.labels clusterNameLabel = some cn)
    (hc : inp.getCluster = GetResult.found c)
    (havi : (lookupKV c.labels aviClusterLabel).isNone = false)
    (hdel : c.deletionTimestamp.isSome = true) :
    reconcileBody inp obj = (reconcileClusterDelete obj c, none) := by
  unfold reconcileBody
  rw [hl, hc]
  simp [havi, hdel]

theorem reconcileBody_normal (inp : ReconcileInput) (obj : Machine) (cn : String) (c : Cluster)
    (hl : lookupKV obj.labels clusterNameLabel = some cn)
    (hc : inp.getCluster = GetResult.found c)
    (havi : (lookupKV c.labels aviClusterLabel).isNone = false)
    (hdel : c.deletionTimestamp.isSome = false) :
    reconcileBody inp obj = (reconcileNormal obj, none) := by
  unfold reconcileBody
  rw [hl, hc]
  simp [havi, hdel]

/-- Running the decision logic a second time on its own output is a no-op. -/
theorem reconcileBody_fst_idem (inp : ReconcileInput) (obj : Machine) :
    (reconcileBody inp (reconcileBody inp obj).1).1 = (reconcileBody inp obj).1 := by
  cases hl : lookupKV obj.labels clusterNameLabel with
  | none =>
    rw [reconcileBody_no_label inp obj hl]
    rw [reconcileBody_no_label inp obj hl]
  | some cn =>
    cases hc : inp.getCluster with
    | notFound =>
      rw [reconcileBody_cluster_notFound inp obj cn hl hc]
      rw [reconcileBody_cluster_notFound inp obj cn hl hc]
    | errored =>
      rw [reconcileBody_cluster_errored inp obj cn hl hc]
      rw [reconcileBody_cluster_errored inp obj cn hl hc]
    | found cluster =>
      by_cases havi : (lookupKV cluster.labels aviClusterLabel).isNone = true
      · rw [reconcileBody_no_avi inp obj cn cluster hl hc havi]
        rw [reconcileBody_no_avi inp obj cn cluster hl hc havi]
      · rw [Bool.not_eq_true] at havi
        by_cases hdel : cluster.deletionTimestamp.isSome = true
        · rw [reconcileBody_deleting inp obj cn cluster hl hc havi hdel]
          have hl2 : lookupKV (reconcileClusterDelete obj cluster).labels clusterNameLabel =
              some cn := by
            rw [show (reconcileClusterDelete obj cluster).labels = obj.labels from rfl, hl]
          rw [reconcileBody_deleting inp (reconcileClusterDelete obj cluster) cn cluster
            hl2 hc havi hdel]
          show reconcileClusterDelete (reconcileClusterDelete obj cluster) cluster =
            reconcileClusterDelete obj cluster
          exact reconcileHook_idem obj cluster
        · rw [Bool.not_eq_true] at hdel
          rw [reconcileBody_normal inp obj cn cluster hl hc havi hdel]
          have hl2 : lookupKV (reconcileNormal obj).labels clusterNameLabel = some cn := by
            rw [reconcileNormal_labels, hl]
          rw [reconcileBody_normal inp (reconcileNormal obj) cn cluster hl2 hc havi hdel]
          show reconcileNormal (reconcileNormal obj) = reconcileNormal obj
          exact reconcileNormal_idem obj

/-- Unfolded form of `reconcile` when the Machine is found and the patch
helper initializes. -/
theorem reconcile_found_eq (inp : ReconcileInput) (m : Machine)
    (hm : inp.getMachine = GetResult.found m) (hpi : inp.patchInitFails = false) :
    reconcile inp =
      ⟨some (reconcileBody inp m).1,
        (if inp.patchCommitFails = true then
          match (reconcileBody inp m).2 with
          | none => some RError.patchCommitErr
          | some e => some e
        else (reconcileBody inp m).2),
        decide ((reconcileBody inp m).1 ≠ m)⟩ := by
  unfold reconcile
  rw [hm, hpi]
  simp

/-! ### Claim theorems -/

/-- C6: when the Machine get reports NotFound, Reconcile returns success with
no error and performs no write; when the get fails for any other reason, that
error is returned. -/
theorem c6_notfound_terminal (inp : ReconcileInput) :
    (inp.getMachine = GetResult.notFound →
      reconcile inp = ⟨none, none, false⟩) ∧
    (inp.getMachine = GetResult.errored →
      reconcile inp = ⟨none, some RError.machineGetErr, false⟩) := by
  constructor
  · intro h
    unfold reconcile
    rw [h]
  · intro h
    unfold reconcile
    rw [h]

theorem c6_notfound_witness :
    reconcile ⟨GetResult.notFound, GetResult.notFound, false, false⟩ = ⟨none, none, false⟩ ∧
    reconcile ⟨GetResult.errored, GetResult.notFound, false, false⟩ =
      ⟨none, some RError.machineGetErr, false⟩ :=
  ⟨(c6_notfound_terminal ⟨GetResult.notFound, GetResult.notFound, false, false⟩).1 rfl,
   (c6_notfound_terminal ⟨GetResult.errored, GetResult.notFound, false, false⟩).2 rfl⟩

/-- C5: when the owner Cluster lacks the AVI feature label, Reconcile returns
success, leaves the Machine completely unchanged, and issues no write,
whatever the Cluster's deletion / finalizer state. -/
theorem c5_out_of_scope_frame (inp : ReconcileInput) (m : Machine) (c : Cluster)
    (hm : inp.getMachine = GetResult.found m)
    (hc : inp.getCluster = GetResult.found c)
    (havi : lookupKV c.labels aviClusterLabel = none)
    (hpi : inp.patchInitFails = false)
    (hpc : inp.patchCommitFails = false) :
    reconcile inp = ⟨some m, none, false⟩ := by
  have hb : reconcileBody inp m = (m, none) := by
    cases hl : lookupKV m.labels clusterNameLabel with
    | none => exact reconcileBody_no_label inp m hl
    | some cn => exact reconcileBody_no_avi inp m cn c hl hc (by rw [havi]; rfl)
  rw [reconcile_found_eq inp m hm hpi, hb, hpc]
  simp

theorem c5_out_of_scope_witness :
    reconcile ⟨GetResult.found ⟨[(clusterNameLabel, "cluster-a")], some []⟩,
      GetResult.found ⟨[], some 1, []⟩, false, false⟩ =
    ⟨some ⟨[(clusterNameLabel, "cluster-a")], some []⟩, none, false⟩ :=
  c5_out_of_scope_frame _ ⟨[(clusterNameLabel, "cluster-a")], some []⟩ ⟨[], some 1, []⟩
    rfl rfl rfl rfl rfl

/-- C1 (amended): when the deferred patch commit fails, the commit failure is
returned exactly when the decision logic returned nil; when the decision
logic itself errs, its error is returned and the commit failure is only
logged. -/
theorem c1_commit_error_precedence (inp : ReconcileInput) (m : Machine)
    (hm : inp.getMachine = GetResult.found m)
    (hpi : inp.patchInitFails = false)
    (hpc : inp.patchCommitFails = true) :
    ((reconcileBody inp m).2 = none → (reconcile inp).err = some RError.patchCommitErr) ∧
    (∀ e : RError, (reconcileBody inp m).2 = some e → (reconcile inp).err = some e) := by
  rw [reconcile_found_eq inp m hm hpi, hpc]
  constructor
  · intro h
    rw [show (⟨some (reconcileBody inp m).1,
        (if true = true then
          match (reconcileBody inp m).2 with
          | none => some RError.patchCommitErr
          | some e => some e
        else (reconcileBody inp m).2),
        decide ((reconcileBody inp m).1 ≠ m)⟩ : ReconcileOutput).err =
      (match (reconcileBody inp m).2 with
       | none => some RError.patchCommitErr
       | some e => some e) from rfl]
    rw [h]
  · intro e h
    rw [show (⟨some (reconcileBody inp m).1,
        (if true = true then
          match (reconcileBody inp m).2 with
          | none => some RError.patchCommitErr
          | some e => some e
        else (reconcileBody inp m).2),
        decide ((reconcileBody inp m).1 ≠ m)⟩ : ReconcileOutput).err =
      (match (reconcileBody inp m).2 with
       | none => some RError.patchCommitErr
       | some e => some e) from rfl]
    rw [h]

/-- C1 counterexample: with both the decision logic and the patch commit
failing, Reconcile returns the decision error, not the commit failure, so the
commit failure is not authoritative in every such execution. -/
theorem c1_counterexample :
    c1Input.patchCommitFails = true ∧
    (reconcile c1Input).err = some RError.clusterGetErr ∧
    some RError.clusterGetErr ≠ some RError.patchCommitErr := by
  decide

theorem c1_commit_error_witness :
    (reconcile c1WitnessInput).err = some RError.patchCommitErr :=
  (c1_commit_error_precedence c1WitnessInput ⟨[], none⟩ rfl rfl rfl).1 rfl

/-- C3: running Reconcile a second time on its own output, with the store and
patch behaviour unchanged, returns the same Machine state and computes an
empty diff, so the second call issues no write. -/
theorem c3_reconcile_idempotent (inp : ReconcileInput) (m1 : Machine)
    (h : (reconcile inp).machine = some m1) :
    (reconcile { inp with getMachine := GetResult.found m1 }).machine = some m1 ∧
    (reconcile { inp with getMachine := GetResult.found m1 }).wrote = false := by
  cases hm : inp.getMachine with
  | notFound =>
    rw [show reconcile inp = ⟨none, none, false⟩ from by unfold reconcile; rw [hm]] at h
    exact absurd h (by simp)
  | errored =>
    rw [show reconcile inp = ⟨none, some RError.machineGetErr, false⟩ from by
      unfold reconcile; rw [hm]] at h
    exact absurd h (by simp)
  | found obj0 =>
    have hm' : ({ inp with getMachine := GetResult.found m1 } : ReconcileInput).getMachine =
        GetResult.found m1 := rfl
    by_cases hpi : inp.patchInitFails = true
    · have he : reconcile inp = ⟨some obj0, some RError.patchInitErr, false⟩ := by
        unfold reconcile
        rw [hm, hpi]
        rfl
      rw [he] at h
      have he' : reconcile { inp with getMachine := GetResult.found m1 } =
          ⟨some m1, some RError.patchInitErr, false⟩ := by
        unfold reconcile
        rw [hm']
        rw [show ({ inp with getMachine := GetResult.found m1 } : ReconcileInput).patchInitFails =
          true from hpi]
        rfl
      rw [he']
      exact ⟨rfl, rfl⟩
    · rw [Bool.not_eq_true] at hpi
      rw [reconcile_found_eq inp obj0 hm hpi] at h
      have hob : (reconcileBody inp obj0).1 = m1 := by simpa using h
      have hpi' : ({ inp with getMachine := GetResult.found m1 } : ReconcileInput).patchInitFails =
          false := hpi
      rw [reconcile_found_eq { inp with getMachine := GetResult.found m1 } m1 hm' hpi']
      have hb : reconcileBody { inp with getMachine := GetResult.found m1 } m1 =
          reconcileBody inp m1 :=
        reconcileBody_congr { inp with getMachine := GetResult.found m1 } inp rfl m1
      have hfst : (reconcileBody inp m1).1 = m1 := by
        rw [← hob]
        exact reconcileBody_fst_idem inp obj0
      constructor
      · show some (reconcileBody { inp with getMachine := GetResult.found m1 } m1).1 = some m1
        rw [hb, hfst]
      · show decide ((reconcileBody { inp with getMachine := GetResult.found m1 } m1).1 ≠ m1) =
          false
        rw [hb, hfst]
        simp

theorem c3_idempotent_witness :
    (reconcile c3Input).machine = some c3M1 ∧
    (reconcile { c3Input with getMachine := GetResult.found c3M1 }).machine = some c3M1 ∧
    (reconcile { c3Input with getMachine := GetResult.found c3M1 }).wrote = false := by
  have h1 : (reconcile c3Input).machine = some c3M1 := by decide
  exact ⟨h1, (c3_reconcile_idempotent c3Input c3M1 h1).1,
    (c3_reconcile_idempotent c3Input c3M1 h1).2⟩

/-- C2: the §4.1 table demands that a successful in-scope Reconcile of a
not-deleting owner leaves the hook present (adding it when absent); on a
Machine that carries an annotation at the bare base key, the code skips the
add, so the hook is still absent afterwards.  The reconciler contradicts its
own comment ("Add pre-terminate machine deletion phase hook if it doesn't
exist") because it tests the bare base key instead of the hook key. -/
theorem c2_bare_key_divergence :
    c2Cluster.deletionTimestamp.isSome = false ∧
    hasHook c2Machine = false ∧
    (reconcile c2Input).err = none ∧
    (reconcile c2Input).machine = some c2Machine := by
  decide

/-- C8: reconcileNormal tests the bare base key; whenever that key is absent
it stores "ako-operator" under the full hook key, and this store is a no-op
when that exact entry is already present. -/
theorem c8_bare_check_full_write (obj : Machine)
    (hbare : lookupKV (obj.annotationMap.getD []) preTerminateHookBase = none) :
    lookupKV ((reconcileNormal obj).annotationMap.getD []) preTerminateHookKey =
      some "ako-operator" ∧
    (lookupKV (obj.annotationMap.getD []) preTerminateHookKey = some "ako-operator" →
      reconcileNormal obj = obj) := by
  constructor
  · exact lookupKV_normalAnn_hook obj.annotationMap hbare
  · intro h
    have hnoop : normalAnn obj.annotationMap = obj.annotationMap := by
      cases hann : obj.annotationMap with
      | none =>
        rw [hann] at h
        simp [lookupKV] at h
      | some l =>
        rw [hann] at hbare h
        unfold normalAnn
        simp only [Option.getD_some] at hbare h ⊢
        rw [hbare]
        simp only [Option.isNone_none, if_true]
        rw [insertKV_lookup_eq l preTerminateHookKey "ako-operator" h]
    show { obj with annotationMap := normalAnn obj.annotationMap } = obj
    rw [hnoop]

theorem c8_witness :
    lookupKV ((reconcileNormal ⟨[], some [(preTerminateHookKey, "ako-operator")]⟩
        ).annotationMap.getD []) preTerminateHookKey = some "ako-operator" ∧
    reconcileNormal ⟨[], some [(preTerminateHookKey, "ako-operator")]⟩ =
      ⟨[], some [(preTerminateHookKey, "ako-operator")]⟩ :=
  ⟨(c8_bare_check_full_write ⟨[], some [(preTerminateHookKey, "ako-operator")]⟩ (by decide)).1,
   (c8_bare_check_full_write ⟨[], some [(preTerminateHookKey, "ako-operator")]⟩ (by decide)).2
     (by decide)⟩

/-- C9: in the deleting-with-finalizer-absent branch, every annotation key
other than the operator's own hook key keeps its value, even though the
removal is triggered by any key sharing the base prefix. -/
theorem c9_delete_frame (obj : Machine) (c : Cluster) (k : String)
    (hfin : c.finalizers.contains clusterFinalizer = false)
    (hk : k ≠ preTerminateHookKey) :
    lookupKV ((reconcileMachineDeletionHook obj c).annotationMap.getD []) k =
      lookupKV (obj.annotationMap.getD []) k := by
  show lookupKV ((deletionHookAnn c obj.annotationMap).getD []) k = _
  unfold deletionHookAnn
  rw [hfin]
  simp only [Bool.false_eq_true, if_false]
  by_cases h2 : hasPrefixedKey preTerminateHookBase obj.annotationMap = true
  · rw [if_pos h2]
    cases obj.annotationMap with
    | none => rfl
    | some l =>
      show lookupKV (eraseKV l preTerminateHookKey) k = lookupKV l k
      exact lookupKV_eraseKV_ne l preTerminateHookKey k hk
  · rw [if_neg h2]

theorem c9_delete_frame_witness :
    lookupKV ((reconcileMachineDeletionHook
        ⟨[], some [(preTerminateHookBase ++ "/other", "v"),
          (preTerminateHookKey, "ako-operator")]⟩
        ⟨[], some 1, []⟩).annotationMap.getD []) (preTerminateHookBase ++ "/other") =
      lookupKV [(preTerminateHookBase ++ "/other", "v"),
        (preTerminateHookKey, "ako-operator")] (preTerminateHookBase ++ "/other") :=
  c9_delete_frame ⟨[], some [(preTerminateHookBase ++ "/other", "v"),
      (preTerminateHookKey, "ako-operator")]⟩ ⟨[], some 1, []⟩
    (preTerminateHookBase ++ "/other") rfl (by decide)

/-- C10: a not-deleting, in-scope Reconcile on a Machine with a nil
annotation map succeeds, and the final map holds exactly the hook entry. -/
theorem c10_nil_map_safe (inp : ReconcileInput) (m : Machine) (c : Cluster) (cn : String)
    (hm : inp.getMachine = GetResult.found m)
    (hann : m.annotationMap = none)
    (hcn : lookupKV m.labels clusterNameLabel = some cn)
    (hc : inp.getCluster = GetResult.found c)
    (havi : (lookupKV c.labels aviClusterLabel).isNone = false)
    (hdel : c.deletionTimestamp.isSome = false)
    (hpi : inp.patchInitFails = false)
    (hpc : inp.patchCommitFails = false) :
    (reconcile inp).err = none ∧
    (reconcile inp).machine =
      some { m with annotationMap := some [(preTerminateHookKey, "ako-operator")] } := by
  rw [reconcile_found_eq inp m hm hpi]
  rw [reconcileBody_normal inp m cn c hcn hc havi hdel]
  rw [hpc]
  constructor
  · rfl
  · show some (reconcileNormal m) = _
    unfold reconcileNormal normalAnn
    rw [hann]
    simp [lookupKV, insertKV]

theorem c10_witness :
    (reconcile ⟨GetResult.found ⟨[(clusterNameLabel, "cluster-a")], none⟩,
      GetResult.found ⟨[(aviClusterLabel, "")], none, []⟩, false, false⟩).err = none ∧
    (reconcile ⟨GetResult.found ⟨[(clusterNameLabel, "cluster-a")], none⟩,
      GetResult.found ⟨[(aviClusterLabel, "")], none, []⟩, false, false⟩).machine =
      some ⟨[(clusterNameLabel, "cluster-a")], some [(preTerminateHookKey, "ako-operator")]⟩ :=
  c10_nil_map_safe _ ⟨[(clusterNameLabel, "cluster-a")], none⟩ ⟨[(aviClusterLabel, "")], none, []⟩
    "cluster-a" rfl rfl rfl rfl rfl rfl rfl rfl

/-- C4 counterexample: a successful in-scope Reconcile observed the owner
deleting with the finalizer still present — so the owner is NOT in the
(deleting ∧ finalizer-absent) state — yet the hook tag is absent afterwards,
refuting the claimed equivalence. -/
theorem c4_counterexample :
    (reconcile c4Input).err = none ∧
    (reconcile c4Input).machine = some c4Machine ∧
    (c4Cluster.deletionTimestamp.isSome && !(c4Cluster.finalizers.contains clusterFinalizer))
      = false ∧
    hasHook c4Machine = false := by
  decide

/-- C4 (amended): after a successful in-scope Reconcile, the hook is absent
when the owner is deleting with the finalizer gone; it is present when the
owner is not deleting and the bare base key was absent; in the remaining
cases (deleting with finalizer present, or not deleting with the bare base
key present) the Machine — hence the hook state — is unchanged. -/
theorem c4_hook_state_after (inp : ReconcileInput) (m m1 : Machine) (c : Cluster) (cn : String)
    (hm : inp.getMachine = GetResult.found m)
    (hcn : lookupKV m.labels clusterNameLabel = some cn)
    (hc : inp.getCluster = GetResult.found c)
    (havi : (lookupKV c.labels aviClusterLabel).isNone = false)
    (hpi : inp.patchInitFails = false)
    (hpc : inp.patchCommitFails = false)
    (hres : (reconcile inp).machine = some m1) :
    (reconcile inp).err = none ∧
    (c.deletionTimestamp.isSome = true → c.finalizers.contains clusterFinalizer = false →
      hasHook m1 = false) ∧
    (c.deletionTimestamp.isSome = false →
      lookupKV (m.annotationMap.getD []) preTerminateHookBase = none →
      hasHook m1 = true) ∧
    (c.deletionTimestamp.isSome = true → c.finalizers.contains clusterFinalizer = true →
      m1 = m) ∧
    (c.deletionTimestamp.isSome = false →
      (lookupKV (m.annotationMap.getD []) preTerminateHookBase).isSome = true →
      m1 = m) := by
  by_cases hdel : c.deletionTimestamp.isSome = true
  · rw [reconcile_found_eq inp m hm hpi, reconcileBody_deleting inp m cn c hcn hc havi hdel,
      hpc] at hres ⊢
    have hm1 : m1 = reconcileClusterDelete m c := by
      have : some (reconcileClusterDelete m c) = some m1 := hres
      exact (Option.some.injEq _ _ ▸ this).symm
    refine ⟨rfl, ?_, ?_, ?_, ?_⟩
    · intro _ hfin
      rw [hm1]
      exact hasHook_reconcileHook m c hfin
    · intro hcontra
      rw [hdel] at hcontra
      exact absurd hcontra (by decide)
    · intro _ hfin
      rw [hm1]
      show { m with annotationMap := deletionHookAnn c m.annotationMap } = m
      rw [show deletionHookAnn c m.annotationMap = m.annotationMap from by
        unfold deletionHookAnn
        rw [if_pos hfin]]
    · intro hcontra
      rw [hdel] at hcontra
      exact absurd hcontra (by decide)
  · rw [Bool.not_eq_true] at hdel
    rw [reconcile_found_eq inp m hm hpi, reconcileBody_normal inp m cn c hcn hc havi hdel,
      hpc] at hres ⊢
    have hm1 : m1 = reconcileNormal m := by
      have : some (reconcileNormal m) = some m1 := hres
      exact (Option.some.injEq _ _ ▸ this).symm
    refine ⟨rfl, ?_, ?_, ?_, ?_⟩
    · intro hcontra
      rw [hdel] at hcontra
      exact absurd hcontra (by decide)
    · intro _ hbare
      rw [hm1]
      exact hasHook_reconcileNormal m hbare
    · intro hcontra
      rw [hdel] at hcontra
      exact absurd hcontra (by decide)
    · intro _ hbare
      rw [hm1]
      show { m with annotationMap := normalAnn m.annotationMap } = m
      rw [show normalAnn m.annotationMap = m.annotationMap from by
        unfold normalAnn
        cases hx : lookupKV (m.annotationMap.getD []) preTerminateHookBase with
        | none =>
          rw [hx] at hbare
          exact absurd hbare (by decide)
        | some v => simp]

theorem c4_hook_state_witness :
    (reconcile c3Input).err = none ∧
    hasHook c3M1 = true := by
  have h := c4_hook_state_after c3Input ⟨[(clusterNameLabel, "cluster-a")], none⟩ c3M1
    ⟨[(aviClusterLabel, "")], none, []⟩ "cluster-a" rfl rfl rfl rfl rfl rfl (by decide)
  exact ⟨h.1, h.2.2.1 rfl rfl⟩

/-- C7: rendering the unit test's deployment config fails with a validation
error (and hence no output) when the data-network CIDR is the literal
"test", and succeeds for the identical config with CIDR "10.0.0.0/24". -/
theorem c7_render_validation :
    isRenderErr (ConvertToAKODeploymentYaml unitTestBadConfig "test") = true ∧
    isRenderErr (ConvertToAKODeploymentYaml unitTestConfig "test") = false := by
  decide

end AKOO
